import Mathlib

/-!
Shallow embedding of `src/v0.001.py`, a script that builds a daily agenda
PDF: one page per day from a start date until December 31 of that year,
each page carrying a light grid, a centered Spanish date header and an
optional centered page number.

Modelling conventions:
* Python `datetime.date` values are modelled by `PyDate` together with
  proleptic-Gregorian helpers (`isLeap`, `daysInMonth`, `toOrdinal`,
  `weekday`, `nextDate`, `dateLe`); these encode the arithmetic of the
  CPython `datetime` library that the script calls (`timedelta(days=1)`,
  `date.weekday`, `date.__le__`).
* ReportLab drawing calls are modelled by records of the geometry they
  receive (`Line` for `cnv.line`, `TextDraw` for `cnv.drawString`); a page
  is the collection of drawn elements plus the loop state (date, ordinal)
  it was rendered from.  Float page sizes are modelled by the exact
  rationals that the ReportLab A4 floats approximate.
* Effectful inputs (filesystem probes, font registration, wall clocks,
  font metrics) are modelled by explicit environment records (`FontEnv`,
  `Env`); an exception thrown by `pdfmetrics.registerFont` is modelled by
  `registerOk` returning `false`.
* The two `while` loops in `draw_grid` and the date loop in
  `build_agenda_pdf` are structurally recursive on an explicit fuel that
  is proved sufficient (`gridFuel_spec`, the `agendaLoop` lemmas), so the
  embedded functions compute; running out of fuel yields the same result
  as an empty loop (`gridCursorGo`) or `none` (`agendaLoop`) and is shown
  unreachable under the loops' termination conditions.
-/

namespace AgendaPdf

/-- Python `datetime.date` triple: (year, month, day). -/
structure PyDate where
  year : Nat
  month : Nat
  day : Nat
deriving DecidableEq

/-- Gregorian leap-year rule, as in CPython `datetime._is_leap`. -/
def isLeap (y : Nat) : Bool := (y % 4 == 0 && y % 100 != 0) || (y % 400 == 0)

/-- Length of month `m` (1..12) in a year whose leap flag is `leap`
(CPython `_DAYS_IN_MONTH`). -/
def monthLen (leap : Bool) (m : Nat) : Nat :=
  match m with
  | 1 => 31
  | 2 => if leap then 29 else 28
  | 3 => 31
  | 4 => 30
  | 5 => 31
  | 6 => 30
  | 7 => 31
  | 8 => 31
  | 9 => 30
  | 10 => 31
  | 11 => 30
  | 12 => 31
  | _ => 0

/-- Days in month `m` of year `y`. -/
def daysInMonth (y m : Nat) : Nat := monthLen (isLeap y) m

/-- Days in the months strictly before month `m` in a common year
(CPython `_DAYS_BEFORE_MONTH`). -/
def daysBeforeMonthCommon (m : Nat) : Nat :=
  match m with
  | 1 => 0
  | 2 => 31
  | 3 => 59
  | 4 => 90
  | 5 => 120
  | 6 => 151
  | 7 => 181
  | 8 => 212
  | 9 => 243
  | 10 => 273
  | 11 => 304
  | 12 => 334
  | _ => 0

/-- Days in the months of year `y` strictly before month `m`
(CPython `_days_before_month`). -/
def daysBeforeMonth (y m : Nat) : Nat :=
  daysBeforeMonthCommon m + (if 2 < m ∧ isLeap y = true then 1 else 0)

/-- Ordinal of the date inside its own year (Jan 1 = 1). -/
def dayOfYear (d : PyDate) : Nat := daysBeforeMonth d.year d.month + d.day

/-- Number of days of year `y`. -/
def daysInYear (y : Nat) : Nat := if isLeap y then 366 else 365

/-- Days before January 1 of year `y` (CPython `_days_before_year`). -/
def daysBeforeYear (y : Nat) : Nat :=
  (y - 1) * 365 + (y - 1) / 4 - (y - 1) / 100 + (y - 1) / 400

/-- CPython `date.toordinal`: day number with 0001-01-01 = 1. -/
def toOrdinal (d : PyDate) : Nat := daysBeforeYear d.year + dayOfYear d

/-- CPython `date.weekday`: Monday = 0 .. Sunday = 6
(day ordinal 1, 0001-01-01, was a Monday). -/
def weekday (d : PyDate) : Nat := (toOrdinal d + 6) % 7

/-- Dates representable by Python `datetime.date` (the year upper bound
9999 is irrelevant to the claims and omitted). -/
def ValidDate (d : PyDate) : Prop :=
  1 ≤ d.year ∧ 1 ≤ d.month ∧ d.month ≤ 12 ∧ 1 ≤ d.day ∧
    d.day ≤ daysInMonth d.year d.month

instance : DecidablePred ValidDate := fun d => by unfold ValidDate; infer_instance

/-- Adding `timedelta(days=1)` to a valid date: bump the day, rolling the
month and year over at the end of a month and of December respectively. -/
def nextDate (d : PyDate) : PyDate :=
  if d.day < daysInMonth d.year d.month then ⟨d.year, d.month, d.day + 1⟩
  else if d.month < 12 then ⟨d.year, d.month + 1, 1⟩
  else ⟨d.year + 1, 1, 1⟩

/-- Python `date.__le__`: lexicographic on (year, month, day). -/
def dateLe (a b : PyDate) : Prop :=
  a.year < b.year ∨ (a.year = b.year ∧
    (a.month < b.month ∨ (a.month = b.month ∧ a.day ≤ b.day)))

instance : ∀ a b, Decidable (dateLe a b) := fun a b => by
  unfold dateLe; infer_instance

/-- Source line 35: `SPANISH_WEEKDAYS`. -/
def SPANISH_WEEKDAYS : List String :=
  ["Lunes", "Martes", "Miércoles", "Jueves", "Viernes", "Sábado", "Domingo"]

/-- Source line 36: `SPANISH_MONTHS`. -/
def SPANISH_MONTHS : List String :=
  ["Enero", "Febrero", "Marzo", "Abril", "Mayo", "Junio",
   "Julio", "Agosto", "Septiembre", "Octubre", "Noviembre", "Diciembre"]

/-- Source lines 79-83: `format_date_spanish`.  Python list indexing
raises `IndexError` when out of bounds, modelled by `Option`; the result
string mirrors the f-string `f"{weekday} {d.day} {month} {d.year}"`.
(Python's negative-index wrap-around is unreachable here: the weekday
index is a `% 7` and `d.month ≥ 1` holds for every `datetime.date`.) -/
def format_date_spanish (d : PyDate) : Option String :=
  match SPANISH_WEEKDAYS.get? (weekday d), SPANISH_MONTHS.get? (d.month - 1) with
  | some w, some m =>
      some (w ++ " " ++ toString d.day ++ " " ++ m ++ " " ++ toString d.year)
  | _, _ => none

/-- Source line 41: `FALLBACK_FONT`. -/
def FALLBACK_FONT : String := "Helvetica"

/-- Source lines 42-47: `FONT_CANDIDATES`, ordered (name, path) pairs. -/
def FONT_CANDIDATES : List (String × String) :=
  [("DejaVuSans", "/usr/share/fonts/truetype/dejavu/DejaVuSans.ttf"),
   ("FreeSans", "/usr/share/fonts/truetype/freefont/FreeSans.ttf"),
   ("Arial", "/usr/share/fonts/truetype/msttcorefonts/Arial.ttf"),
   ("Arial", "Arial.ttf")]

/-- Filesystem and font-registration environment of
`register_readable_font`: `pathExists` models `os.path.exists`, and
`registerOk p = false` models `pdfmetrics.registerFont(TTFont(n, p))`
raising an exception (corrupt file, permission error, ...). -/
structure FontEnv where
  pathExists : String → Bool
  registerOk : String → Bool

/-- Body of the `for name, path in FONT_CANDIDATES` loop of source lines
54-60: when the path exists and registration succeeds the name is
returned; when the path is missing, or registration raises (caught by the
`except Exception: continue`), the next candidate is tried. -/
def registerLoop (env : FontEnv) : List (String × String) → String
  | [] => FALLBACK_FONT
  | (name, path) :: rest =>
    if env.pathExists path then
      (if env.registerOk path then name else registerLoop env rest)
    else registerLoop env rest

/-- Source lines 52-61: `register_readable_font`. -/
def register_readable_font (env : FontEnv) : String :=
  registerLoop env FONT_CANDIDATES

/-- One `cnv.line(x1, y1, x2, y2)` call. -/
structure Line where
  x1 : ℚ
  y1 : ℚ
  x2 : ℚ
  y2 : ℚ
deriving DecidableEq

/-- One `cnv.drawString(x, y, text)` call. -/
structure TextDraw where
  x : ℚ
  y : ℚ
  text : String
deriving DecidableEq

/-- One step of `while x <= bound: ...; x += s` (source lines 94-97 and
100-104): the cursor is an `int`, the bound a float (an exact rational
here).  The recursion is on a fuel argument; `gridFuel` below supplies
fuel proved sufficient whenever `1 ≤ s`, and on exhausted fuel the loop
stops exactly as if the guard had failed. -/
def gridCursorGo (bound : ℚ) (s : ℤ) : Nat → ℤ → List ℤ
  | 0, _ => []
  | fuel + 1, x =>
    if (x : ℚ) ≤ bound then x :: gridCursorGo bound s fuel (x + s) else []

/-- Fuel bound for `gridCursorGo` starting at 0: more than the number of
iterations of the loop whenever the step is at least 1. -/
def gridFuel (bound : ℚ) : Nat := bound.num.toNat + 1

/-- Vertical-line x-positions of `draw_grid` (source lines 94-97). -/
def gridXs (page_w : ℚ) (spacing : ℤ) : List ℤ :=
  gridCursorGo page_w spacing (gridFuel page_w) 0

/-- Horizontal-line y-positions of `draw_grid` (source lines 100-104);
the bound is `stop_y = page_h - top_margin`. -/
def gridYs (page_h : ℚ) (spacing top_margin : ℤ) : List ℤ :=
  gridCursorGo (page_h - (top_margin : ℚ)) spacing
    (gridFuel (page_h - (top_margin : ℚ))) 0

/-- Source lines 88-104: `draw_grid`, as the list of `cnv.line` calls it
issues, in order: the vertical lines `(x, 0)-(x, page_h)`, then the
horizontal lines `(0, y)-(page_w, y)`.  The `setLineWidth` and
`setStrokeColorRGB` calls carry no geometry and are not modelled. -/
def draw_grid (page_w page_h : ℚ) (spacing top_margin : ℤ) : List Line :=
  (gridXs page_w spacing).map (fun x => ⟨(x : ℚ), 0, (x : ℚ), page_h⟩)
    ++ (gridYs page_h spacing top_margin).map
        (fun y => ⟨0, (y : ℚ), page_w, (y : ℚ)⟩)

/-- Header band of a page: the open region within `top_margin` units of
the top edge. -/
def inHeaderBand (page_h : ℚ) (top_margin : ℤ) (y : ℚ) : Prop :=
  page_h - (top_margin : ℚ) < y

instance (page_h : ℚ) (top_margin : ℤ) (y : ℚ) :
    Decidable (inHeaderBand page_h top_margin y) := by
  unfold inHeaderBand; infer_instance

/-- Source lines 107-112: `draw_centered_text_top`.  `stringWidth` is the
ReportLab metric function `cnv.stringWidth(text, font_name, font_size)`,
passed as part of the environment. -/
def draw_centered_text_top (stringWidth : String → String → ℤ → ℚ)
    (text : String) (page_w page_h : ℚ) (font_name : String)
    (font_size : ℤ) (top_offset : ℤ) : TextDraw :=
  ⟨(page_w - stringWidth text font_name font_size) / 2,
   page_h - (top_offset : ℚ), text⟩

/-- Source lines 115-121: `draw_page_number`, the centered label
`f"{number}"` at height `bottom_margin`. -/
def draw_page_number (stringWidth : String → String → ℤ → ℚ)
    (page_w : ℚ) (font_name : String) (number : Nat)
    (font_size : ℤ) (bottom_margin : ℤ) : TextDraw :=
  ⟨(page_w - stringWidth (toString number) font_name font_size) / 2,
   (bottom_margin : ℚ), toString number⟩

/-- ReportLab A4 width 595.27... pt: the exact rational 75600/127 that
the float approximates (210 mm at 72 pt/inch). -/
def A4w : ℚ := mkRat 75600 127

/-- ReportLab A4 height 841.88... pt: the exact rational 106920/127
(297 mm at 72 pt/inch). -/
def A4h : ℚ := mkRat 106920 127

/-- Source lines 74-76: `end_of_year`, December 31 of the date's year. -/
def end_of_year (d : PyDate) : PyDate := ⟨d.year, 12, 31⟩

/-- Ambient effects of the script: the font filesystem, the ReportLab
string metrics, whether the `zoneinfo` import succeeded (source lines
27-30), and the two clocks `datetime.now(ZoneInfo("Europe/Paris")).date()`
and `date.today()` read by `today_europe_paris`. -/
structure Env where
  fonts : FontEnv
  stringWidth : String → String → ℤ → ℚ
  zoneinfoAvailable : Bool
  parisToday : PyDate
  localToday : PyDate

/-- Source lines 66-71: `today_europe_paris`: the Europe/Paris date when
`ZoneInfo` imported, otherwise the local date - no error in either case. -/
def today_europe_paris (env : Env) : PyDate :=
  if env.zoneinfoAvailable then env.parisToday else env.localToday

/-- Source line 133: `start = start_date or today_europe_paris()`.
A `date` object is always truthy, so the Python `or` only substitutes the
default for `None`. -/
def resolvedStart (env : Env) (start_date : Option PyDate) : PyDate :=
  match start_date with
  | some d => d
  | none => today_europe_paris env

/-- One finished page of the document: the loop state it was rendered
from (`date`, `num`) and the drawing calls issued for it. -/
structure PageOut where
  date : PyDate
  num : Nat
  grid : List Line
  header : TextDraw
  pageNumber : Option TextDraw
deriving DecidableEq

/-- Drawing calls of one iteration of the page loop (source lines
143-151): grid, centered header with `top_offset = top_margin - 30`, and
the optional page number with its default size 10 and margin 20. -/
def mkPage (env : Env) (font_name : String)
    (spacing header_font_size top_margin : ℤ) (include_page_numbers : Bool)
    (header_text : String) (cur : PyDate) (num : Nat) : PageOut :=
  ⟨cur, num,
   draw_grid A4w A4h spacing top_margin,
   draw_centered_text_top env.stringWidth header_text A4w A4h font_name
     header_font_size (top_margin - 30),
   if include_page_numbers then
     some (draw_page_number env.stringWidth A4w font_name num 10 20)
   else none⟩

/-- Fuel for the page loop: strictly more than the at most 366 iterations
any run from a valid start date performs. -/
def agendaFuel : Nat := 400

/-- Source lines 140-155: the `while current <= end` page loop, emitting
one page per day and advancing the date cursor by one day and the page
counter by one per page.  Fuel exhaustion yields `none`; the lemmas below
show this never happens from a valid start date within `agendaFuel`. -/
def agendaLoop (env : Env) (font_name : String)
    (spacing header_font_size top_margin : ℤ) (include_page_numbers : Bool)
    (e : PyDate) : Nat → PyDate → Nat → Option (List PageOut)
  | 0, _, _ => none
  | fuel + 1, cur, num =>
    if dateLe cur e then
      match format_date_spanish cur with
      | none => none
      | some header_text =>
        match agendaLoop env font_name spacing header_font_size top_margin
            include_page_numbers e fuel (nextDate cur) (num + 1) with
        | none => none
        | some rest =>
          some (mkPage env font_name spacing header_font_size top_margin
            include_page_numbers header_text cur num :: rest)
    else some []

/-- Source lines 126-157: `build_agenda_pdf`, as the pages of the
document it saves.  The canvas creation, `cnv.save()` and the final
`print` are I/O actions that carry no page content and are not
modelled. -/
def build_agenda_pdf (env : Env) (start_date : Option PyDate)
    (spacing header_font_size : ℤ) (include_page_numbers : Bool)
    (top_margin : ℤ) : Option (List PageOut) :=
  let start := resolvedStart env start_date
  let e := end_of_year start
  let font_name := register_readable_font env.fonts
  agendaLoop env font_name spacing header_font_size top_margin
    include_page_numbers e agendaFuel start 1

/-- Value of the grid cursor after `n` iterations of `x += s` from 0. -/
def loopCursor (s : ℤ) : Nat → ℤ
  | 0 => 0
  | n + 1 => loopCursor s n + s

/-- Termination of a `while x <= bound: x += s` loop started at 0: some
iterate of the cursor eventually fails the guard. -/
def gridLoopTerminates (bound : ℚ) (s : ℤ) : Prop :=
  ∃ n : Nat, ¬ ((loopCursor s n : ℚ) ≤ bound)

/-- Concrete environment used to exercise the pipeline: no font file
exists, registration always fails, string widths are all zero, and both
clocks read 2025-12-31. -/
def sampleEnv : Env :=
  ⟨⟨fun _ => false, fun _ => false⟩, fun _ _ _ => 0, true,
   ⟨2025, 12, 31⟩, ⟨2025, 12, 31⟩⟩

/-- Concrete one-page run of the pipeline from 2025-12-31. -/
def sampleBuild : Option (List PageOut) :=
  build_agenda_pdf sampleEnv (some ⟨2025, 12, 31⟩) 600 40 true 100

/-! ### Calendar lemmas -/

theorem monthLen_pos (b : Bool) (m : Nat) (h1 : 1 ≤ m) (h2 : m ≤ 12) :
    1 ≤ monthLen b m := by
  interval_cases m <;> cases b <;> decide

theorem monthLen_le_31 (b : Bool) (m : Nat) (h1 : 1 ≤ m) (h2 : m ≤ 12) :
    monthLen b m ≤ 31 := by
  interval_cases m <;> cases b <;> decide

theorem daysBeforeMonth_succ (y m : Nat) (h1 : 1 ≤ m) (h2 : m ≤ 11) :
    daysBeforeMonth y (m + 1) = daysBeforeMonth y m + daysInMonth y m := by
  interval_cases m <;> cases hb : isLeap y <;>
    simp [daysBeforeMonth, daysBeforeMonthCommon, daysInMonth, monthLen, hb]

theorem daysBeforeMonth_add_le (y m : Nat) (h1 : 1 ≤ m) (h2 : m ≤ 12) :
    daysBeforeMonth y m + daysInMonth y m ≤ daysInYear y := by
  interval_cases m <;> cases hb : isLeap y <;>
    simp [daysBeforeMonth, daysBeforeMonthCommon, daysInMonth, monthLen,
      daysInYear, hb]

theorem daysInYear_le_366 (y : Nat) : daysInYear y ≤ 366 := by
  unfold daysInYear; split_ifs <;> omega

theorem daysInMonth_dec_eq_31 (y : Nat) : daysInMonth y 12 = 31 := by
  cases hb : isLeap y <;> simp [daysInMonth, monthLen, hb]

theorem dayOfYear_dec31 (y : Nat) : dayOfYear ⟨y, 12, 31⟩ = daysInYear y := by
  cases hb : isLeap y <;>
    simp [dayOfYear, daysBeforeMonth, daysBeforeMonthCommon, daysInYear, hb]

theorem dayOfYear_pos (d : PyDate) (hv : ValidDate d) : 1 ≤ dayOfYear d := by
  obtain ⟨_, _, _, hd1, _⟩ := hv
  unfold dayOfYear
  omega

theorem dayOfYear_le (d : PyDate) (hv : ValidDate d) :
    dayOfYear d ≤ daysInYear d.year := by
  obtain ⟨hy, hm1, hm2, hd1, hd2⟩ := hv
  have h := daysBeforeMonth_add_le d.year d.month hm1 hm2
  unfold dayOfYear
  omega

theorem nextDate_valid (d : PyDate) (hv : ValidDate d) :
    ValidDate (nextDate d) := by
  obtain ⟨hy, hm1, hm2, hd1, hd2⟩ := hv
  unfold nextDate
  split_ifs with h1 h2
  · refine ⟨hy, hm1, hm2, ?_, ?_⟩
    · show 1 ≤ d.day + 1
      omega
    · show d.day + 1 ≤ daysInMonth d.year d.month
      omega
  · refine ⟨hy, ?_, ?_, le_refl 1, ?_⟩
    · show 1 ≤ d.month + 1
      omega
    · show d.month + 1 ≤ 12
      omega
    · exact monthLen_pos (isLeap d.year) (d.month + 1) (by omega) (by omega)
  · refine ⟨?_, le_refl 1, ?_, le_refl 1, ?_⟩
    · show 1 ≤ d.year + 1
      omega
    · show (1 : Nat) ≤ 12
      omega
    · exact monthLen_pos (isLeap (d.year + 1)) 1 (by omega) (by omega)

theorem nextDate_not_dec31 (d : PyDate) (hv : ValidDate d)
    (h : ¬ (d.month = 12 ∧ d.day = 31)) :
    (nextDate d).year = d.year ∧ dayOfYear (nextDate d) = dayOfYear d + 1 := by
  obtain ⟨hy, hm1, hm2, hd1, hd2⟩ := hv
  unfold nextDate
  split_ifs with h1 h2
  · refine ⟨rfl, ?_⟩
    show daysBeforeMonth d.year d.month + (d.day + 1) = dayOfYear d + 1
    unfold dayOfYear
    omega
  · refine ⟨rfl, ?_⟩
    show daysBeforeMonth d.year (d.month + 1) + 1 = dayOfYear d + 1
    rw [daysBeforeMonth_succ d.year d.month hm1 (by omega)]
    unfold dayOfYear
    omega
  · exfalso
    have hm : d.month = 12 := by omega
    have h31 : daysInMonth d.year d.month = 31 := by
      rw [hm]; exact daysInMonth_dec_eq_31 d.year
    exact h ⟨hm, by omega⟩

theorem nextDate_dec31 (d : PyDate) (hm : d.month = 12) (hd : d.day = 31) :
    nextDate d = ⟨d.year + 1, 1, 1⟩ := by
  unfold nextDate
  rw [hm, hd, daysInMonth_dec_eq_31 d.year]
  simp

theorem dateLe_end_of_year (d : PyDate) (hv : ValidDate d) :
    dateLe d ⟨d.year, 12, 31⟩ := by
  obtain ⟨hy, hm1, hm2, hd1, hd2⟩ := hv
  have h31 : daysInMonth d.year d.month ≤ 31 :=
    monthLen_le_31 (isLeap d.year) d.month hm1 hm2
  unfold dateLe
  right
  refine ⟨rfl, ?_⟩
  show d.month < 12 ∨ (d.month = 12 ∧ d.day ≤ 31)
  omega

theorem not_dateLe_jan1 (y : Nat) : ¬ dateLe ⟨y + 1, 1, 1⟩ ⟨y, 12, 31⟩ := by
  intro h
  unfold dateLe at h
  rcases h with h | ⟨h, _⟩ <;> simp_all

/-! ### Formatting lemmas -/

theorem weekday_lt_7 (d : PyDate) : weekday d < 7 :=
  Nat.mod_lt _ (by norm_num)

theorem get?_eq_getD (l : List String) (i : Nat) (h : i < l.length) :
    l.get? i = some (l.getD i "") := by
  simp [List.getD_eq_getElem?_getD, List.get?_eq_getElem?,
    List.getElem?_eq_getElem h]

theorem format_date_spanish_eq (d : PyDate) (hm1 : 1 ≤ d.month)
    (hm2 : d.month ≤ 12) :
    format_date_spanish d =
      some (SPANISH_WEEKDAYS.getD (weekday d) "" ++ " " ++ toString d.day
        ++ " " ++ SPANISH_MONTHS.getD (d.month - 1) "" ++ " "
        ++ toString d.year) := by
  unfold format_date_spanish
  rw [get?_eq_getD SPANISH_WEEKDAYS (weekday d)
      (by simpa [SPANISH_WEEKDAYS] using weekday_lt_7 d),
    get?_eq_getD SPANISH_MONTHS (d.month - 1)
      (by simp [SPANISH_MONTHS]; omega)]

/-! ### Page-loop lemmas -/

theorem agendaLoop_stop (env : Env) (fn : String) (sp hfs tm : ℤ)
    (ipn : Bool) (e cur : PyDate) (num fuel : Nat)
    (h : ¬ dateLe cur e) (hf : 1 ≤ fuel) :
    agendaLoop env fn sp hfs tm ipn e fuel cur num = some [] := by
  cases fuel with
  | zero => omega
  | succ n =>
    simp only [agendaLoop]
    rw [if_neg h]

theorem agendaLoop_length (env : Env) (fn : String) (sp hfs tm : ℤ)
    (ipn : Bool) (y : Nat) :
    ∀ fuel cur num, ValidDate cur → cur.year = y →
      daysInYear y + 1 - dayOfYear cur < fuel →
      (agendaLoop env fn sp hfs tm ipn ⟨y, 12, 31⟩ fuel cur num).map
          List.length
        = some (daysInYear y + 1 - dayOfYear cur) := by
  intro fuel
  induction fuel with
  | zero =>
    intro cur num hv hy hcount
    omega
  | succ n ih =>
    intro cur num hv hy hcount
    have hdoy1 := dayOfYear_pos cur hv
    have hdoyle := dayOfYear_le cur hv
    rw [hy] at hdoyle
    have hle : dateLe cur ⟨y, 12, 31⟩ := hy ▸ dateLe_end_of_year cur hv
    have hfmt := format_date_spanish_eq cur hv.2.1 hv.2.2.1
    simp only [agendaLoop]
    rw [if_pos hle, hfmt]
    by_cases hend : cur.month = 12 ∧ cur.day = 31
    · have hnext : nextDate cur = ⟨cur.year + 1, 1, 1⟩ :=
        nextDate_dec31 cur hend.1 hend.2
      have hcur : cur = ⟨y, 12, 31⟩ := by
        obtain ⟨cy, cm, cd⟩ := cur
        simp only at hy
        simp_all
      have hdoy : dayOfYear cur = daysInYear y := by
        rw [hcur, dayOfYear_dec31]
      have hstop : agendaLoop env fn sp hfs tm ipn ⟨y, 12, 31⟩ n
          (nextDate cur) (num + 1) = some [] := by
        apply agendaLoop_stop
        · rw [hnext, hy]
          exact not_dateLe_jan1 y
        · omega
      rw [hstop]
      have hone : daysInYear y + 1 - dayOfYear cur = 1 := by omega
      rw [hone]
      rfl
    · obtain ⟨hyr, hdoy⟩ := nextDate_not_dec31 cur hv hend
      have hvnext := nextDate_valid cur hv
      have hnyr : (nextDate cur).year = y := by rw [hyr, hy]
      have ihres := ih (nextDate cur) (num + 1) hvnext hnyr
        (by rw [hdoy]; omega)
      rcases Option.map_eq_some'.mp ihres with ⟨rest, hrest, hlen⟩
      rw [hrest]
      have hsum : rest.length + 1 = daysInYear y + 1 - dayOfYear cur := by
        rw [hlen, hdoy]
        omega
      simp only [Option.map_some']
      rw [List.length_cons, hsum]

theorem agendaLoop_pages (env : Env) (fn : String) (sp hfs tm : ℤ)
    (ipn : Bool) (e : PyDate) :
    ∀ fuel cur num ps,
      agendaLoop env fn sp hfs tm ipn e fuel cur num = some ps →
      ps.map PageOut.num = List.range' num ps.length ∧
      (∀ i, (ps.get? i).map PageOut.date =
        (ps.get? i).map (fun _ => nextDate^[i] cur)) ∧
      (∀ p ∈ ps, p.pageNumber.map TextDraw.text =
        if ipn = true then some (toString p.num) else none) := by
  intro fuel
  induction fuel with
  | zero =>
    intro cur num ps h
    simp [agendaLoop] at h
  | succ n ih =>
    intro cur num ps h
    simp only [agendaLoop] at h
    by_cases hle : dateLe cur e
    · rw [if_pos hle] at h
      cases hfmt : format_date_spanish cur with
      | none => rw [hfmt] at h; simp at h
      | some s =>
        rw [hfmt] at h
        cases hrec : agendaLoop env fn sp hfs tm ipn e n (nextDate cur)
            (num + 1) with
        | none => rw [hrec] at h; simp at h
        | some rest =>
          rw [hrec] at h
          simp only [Option.some.injEq] at h
          subst h
          obtain ⟨h1, h2, h3⟩ := ih (nextDate cur) (num + 1) rest hrec
          refine ⟨?_, ?_, ?_⟩
          · rw [List.length_cons, List.range'_succ, List.map_cons, h1]
            rfl
          · intro i
            cases i with
            | zero => rfl
            | succ j =>
              have := h2 j
              simp only [List.get?_cons_succ]
              simpa [Function.iterate_succ_apply] using this
          · intro p hp
            rcases List.mem_cons.mp hp with hp | hp
            · subst hp
              by_cases hi : ipn = true
              · simp [mkPage, draw_page_number, hi]
              · simp [mkPage, hi]
            · exact h3 p hp
    · rw [if_neg hle] at h
      simp only [Option.some.injEq] at h
      subst h
      refine ⟨rfl, fun i => rfl, fun p hp => absurd hp (List.not_mem_nil p)⟩

/-! ### Grid lemmas -/

theorem mem_gridCursorGo_le (bound : ℚ) (s : ℤ) :
    ∀ (fuel : Nat) (x a : ℤ), a ∈ gridCursorGo bound s fuel x →
      (a : ℚ) ≤ bound := by
  intro fuel
  induction fuel with
  | zero =>
    intro x a h
    simp [gridCursorGo] at h
  | succ n ih =>
    intro x a h
    simp only [gridCursorGo] at h
    by_cases hx : (x : ℚ) ≤ bound
    · rw [if_pos hx] at h
      rcases List.mem_cons.mp h with rfl | h
      · exact hx
      · exact ih _ _ h
    · rw [if_neg hx] at h
      simp at h

theorem mem_gridCursorGo_iff (bound : ℚ) (s : ℤ) (hs : 1 ≤ s) :
    ∀ (fuel : Nat) (x : ℤ), bound < ((x + fuel * s : ℤ) : ℚ) →
      ∀ a, a ∈ gridCursorGo bound s fuel x ↔
        ∃ k : Nat, a = x + k * s ∧ (a : ℚ) ≤ bound := by
  intro fuel
  induction fuel with
  | zero =>
    intro x hb a
    simp only [Nat.cast_zero, zero_mul, add_zero] at hb
    simp only [gridCursorGo, List.not_mem_nil, false_iff]
    rintro ⟨k, rfl, hle⟩
    have hk : (0 : ℤ) ≤ (k : ℤ) * s :=
      mul_nonneg (Int.natCast_nonneg k) (by omega)
    have hxa : (x : ℚ) ≤ ((x + (k : ℤ) * s : ℤ) : ℚ) := by
      exact_mod_cast (by omega : x ≤ x + (k : ℤ) * s)
    linarith
  | succ n ih =>
    intro x hb a
    simp only [gridCursorGo]
    by_cases hx : (x : ℚ) ≤ bound
    · rw [if_pos hx]
      have hb' : bound < ((x + s + n * s : ℤ) : ℚ) := by
        have : (x + s + n * s : ℤ) = (x + (n + 1 : Nat) * s : ℤ) := by
          push_cast
          ring
        rw [this]
        exact hb
      rw [List.mem_cons, ih (x + s) hb' a]
      constructor
      · rintro (rfl | ⟨k, rfl, hle⟩)
        · exact ⟨0, by simp, hx⟩
        · refine ⟨k + 1, ?_, hle⟩
          push_cast
          ring
      · rintro ⟨k, rfl, hle⟩
        cases k with
        | zero => left; simp
        | succ j =>
          right
          refine ⟨j, ?_, hle⟩
          push_cast
          ring
    · rw [if_neg hx]
      simp only [List.not_mem_nil, false_iff]
      rintro ⟨k, rfl, hle⟩
      have hk : (0 : ℤ) ≤ (k : ℤ) * s :=
        mul_nonneg (Int.natCast_nonneg k) (by omega)
      have hxa : (x : ℚ) ≤ ((x + (k : ℤ) * s : ℤ) : ℚ) := by
        exact_mod_cast (by omega : x ≤ x + (k : ℤ) * s)
      push_neg at hx
      linarith

theorem gridFuel_pos (bound : ℚ) : 1 ≤ gridFuel bound := by
  unfold gridFuel
  omega

theorem lt_gridFuel (bound : ℚ) : bound < ((gridFuel bound : ℤ) : ℚ) := by
  unfold gridFuel
  rcases le_or_lt 0 bound.num with hn | hn
  · have hden : (1 : ℚ) ≤ (bound.den : ℚ) := by
      exact_mod_cast bound.pos
    have h1 : bound ≤ (bound.num : ℚ) := by
      conv_lhs => rw [(Rat.num_div_den bound).symm]
      exact div_le_self (by exact_mod_cast hn) hden
    have h2 : (bound.num : ℚ) < ((bound.num.toNat + 1 : ℤ) : ℚ) := by
      exact_mod_cast (by omega : bound.num < bound.num.toNat + 1)
    push_cast at h2 ⊢
    linarith
  · have hb0 : bound < 0 := by
      by_contra hge
      push_neg at hge
      exact absurd (Rat.num_nonneg.mpr hge) (by omega)
    have : bound.num.toNat = 0 := by omega
    rw [this]
    push_cast
    linarith

theorem gridFuel_spec (bound : ℚ) (s : ℤ) (hs : 1 ≤ s) :
    bound < (((0 : ℤ) + (gridFuel bound : ℤ) * s : ℤ) : ℚ) := by
  have h2 : (gridFuel bound : ℤ) ≤ (gridFuel bound : ℤ) * s :=
    le_mul_of_one_le_right (by positivity) hs
  have h3 := lt_gridFuel bound
  have h4 : ((gridFuel bound : ℤ) : ℚ) ≤ (((gridFuel bound : ℤ) * s : ℤ) : ℚ) := by
    exact_mod_cast h2
  push_cast at h3 h4 ⊢
  linarith

theorem mem_gridXs_iff (w : ℚ) (s : ℤ) (hs : 1 ≤ s) (x : ℤ) :
    x ∈ gridXs w s ↔ ∃ k : Nat, x = k * s ∧ (x : ℚ) ≤ w := by
  unfold gridXs
  rw [mem_gridCursorGo_iff w s hs (gridFuel w) 0 (by
    have := gridFuel_spec w s hs
    push_cast at this ⊢
    linarith) x]
  simp

theorem mem_gridYs_iff (page_h : ℚ) (s tm : ℤ) (hs : 1 ≤ s) (y : ℤ) :
    y ∈ gridYs page_h s tm ↔
      ∃ k : Nat, y = k * s ∧ (y : ℚ) ≤ page_h - (tm : ℚ) := by
  unfold gridYs
  rw [mem_gridCursorGo_iff (page_h - (tm : ℚ)) s hs _ 0 (by
    have := gridFuel_spec (page_h - (tm : ℚ)) s hs
    push_cast at this ⊢
    linarith) y]
  simp

theorem mem_draw_grid_iff (w page_h : ℚ) (s tm : ℤ) (hs : 1 ≤ s) (L : Line) :
    L ∈ draw_grid w page_h s tm ↔
      (∃ k : Nat, (((k : ℤ) * s : ℤ) : ℚ) ≤ w ∧
        L = ⟨(((k : ℤ) * s : ℤ) : ℚ), 0, (((k : ℤ) * s : ℤ) : ℚ), page_h⟩) ∨
      (∃ k : Nat, (((k : ℤ) * s : ℤ) : ℚ) ≤ page_h - (tm : ℚ) ∧
        L = ⟨0, (((k : ℤ) * s : ℤ) : ℚ), w, (((k : ℤ) * s : ℤ) : ℚ)⟩) := by
  unfold draw_grid
  rw [List.mem_append, List.mem_map, List.mem_map]
  constructor
  · rintro (⟨x, hx, rfl⟩ | ⟨y, hy, rfl⟩)
    · obtain ⟨k, rfl, hle⟩ := (mem_gridXs_iff w s hs x).mp hx
      exact Or.inl ⟨k, hle, rfl⟩
    · obtain ⟨k, rfl, hle⟩ := (mem_gridYs_iff page_h s tm hs y).mp hy
      exact Or.inr ⟨k, hle, rfl⟩
  · rintro (⟨k, hle, rfl⟩ | ⟨k, hle, rfl⟩)
    · exact Or.inl ⟨(k : ℤ) * s,
        (mem_gridXs_iff w s hs _).mpr ⟨k, rfl, hle⟩, rfl⟩
    · exact Or.inr ⟨(k : ℤ) * s,
        (mem_gridYs_iff page_h s tm hs _).mpr ⟨k, rfl, hle⟩, rfl⟩

/-! ### Font-resolution and cursor lemmas -/

theorem registerLoop_find (env : FontEnv) :
    ∀ l : List (String × String),
      registerLoop env l =
        ((l.find? fun c => env.pathExists c.2 && env.registerOk c.2).map
          Prod.fst).getD FALLBACK_FONT := by
  intro l
  induction l with
  | nil => rfl
  | cons c rest ih =>
    obtain ⟨name, path⟩ := c
    cases h1 : env.pathExists path <;> cases h2 : env.registerOk path <;>
      simp [registerLoop, List.find?, h1, h2, ih]

theorem loopCursor_eq (s : ℤ) : ∀ n : Nat, loopCursor s n = n * s := by
  intro n
  induction n with
  | zero => simp [loopCursor]
  | succ m ih =>
    show loopCursor s m + s = (m + 1 : Nat) * s
    rw [ih]
    push_cast
    ring

/-! ### Pipeline length lemma -/

theorem build_length (env : Env) (sd : Option PyDate) (sp hfs : ℤ)
    (ipn : Bool) (tm : ℤ) (hv : ValidDate (resolvedStart env sd)) :
    (build_agenda_pdf env sd sp hfs ipn tm).map List.length =
      some (toOrdinal (end_of_year (resolvedStart env sd)) + 1 -
        toOrdinal (resolvedStart env sd)) := by
  set start := resolvedStart env sd with hstart
  have hdoy1 := dayOfYear_pos start hv
  have hdoyle := dayOfYear_le start hv
  have h366 := daysInYear_le_366 start.year
  have hcount : daysInYear start.year + 1 - dayOfYear start < agendaFuel := by
    unfold agendaFuel
    omega
  have hres := agendaLoop_length env (register_readable_font env.fonts) sp hfs
    tm ipn start.year agendaFuel start 1 hv rfl hcount
  have hbuild : build_agenda_pdf env sd sp hfs ipn tm =
      agendaLoop env (register_readable_font env.fonts) sp hfs tm ipn
        ⟨start.year, 12, 31⟩ agendaFuel start 1 := rfl
  rw [hbuild, hres]
  congr 1
  have hord : toOrdinal (end_of_year start) =
      daysBeforeYear start.year + daysInYear start.year := by
    show daysBeforeYear start.year + dayOfYear ⟨start.year, 12, 31⟩ = _
    rw [dayOfYear_dec31]
  rw [hord]
  unfold toOrdinal
  omega

/-! ### Claim theorems -/

/-- C1: for every start date (explicit or defaulted), `build_agenda_pdf`
produces exactly one page per calendar day in the closed interval from
the start date to December 31 of its year; Dec 31 starts give 1 page,
Jan 1 of common year 2025 gives 365, Jan 1 of leap year 2024 gives 366,
and a loop whose start is past its end produces zero pages. -/
theorem spec_c1_page_count :
    (∀ (env : Env) (sd : Option PyDate) (sp hfs : ℤ) (ipn : Bool) (tm : ℤ),
      ValidDate (resolvedStart env sd) →
      (build_agenda_pdf env sd sp hfs ipn tm).map List.length =
        some (toOrdinal (end_of_year (resolvedStart env sd)) + 1 -
          toOrdinal (resolvedStart env sd))) ∧
    (∀ (env : Env) (sp hfs : ℤ) (ipn : Bool) (tm : ℤ),
      (build_agenda_pdf env (some ⟨2025, 12, 31⟩) sp hfs ipn tm).map
        List.length = some 1) ∧
    (∀ (env : Env) (sp hfs : ℤ) (ipn : Bool) (tm : ℤ),
      (build_agenda_pdf env (some ⟨2025, 1, 1⟩) sp hfs ipn tm).map
        List.length = some 365) ∧
    (∀ (env : Env) (sp hfs : ℤ) (ipn : Bool) (tm : ℤ),
      (build_agenda_pdf env (some ⟨2024, 1, 1⟩) sp hfs ipn tm).map
        List.length = some 366) ∧
    (∀ (env : Env) (fn : String) (sp hfs tm : ℤ) (ipn : Bool)
      (e cur : PyDate) (num fuel : Nat), ¬ dateLe cur e → 1 ≤ fuel →
      agendaLoop env fn sp hfs tm ipn e fuel cur num = some []) := by
  refine ⟨fun env sd sp hfs ipn tm hv => build_length env sd sp hfs ipn tm hv,
    ?_, ?_, ?_,
    fun env fn sp hfs tm ipn e cur num fuel h hf =>
      agendaLoop_stop env fn sp hfs tm ipn e cur num fuel h hf⟩
  · intro env sp hfs ipn tm
    exact (build_length env (some ⟨2025, 12, 31⟩) sp hfs ipn tm
        (by decide : ValidDate ⟨2025, 12, 31⟩)).trans
      (by decide : some (toOrdinal (end_of_year ⟨2025, 12, 31⟩) + 1 -
        toOrdinal ⟨2025, 12, 31⟩) = some 1)
  · intro env sp hfs ipn tm
    exact (build_length env (some ⟨2025, 1, 1⟩) sp hfs ipn tm
        (by decide : ValidDate ⟨2025, 1, 1⟩)).trans
      (by decide : some (toOrdinal (end_of_year ⟨2025, 1, 1⟩) + 1 -
        toOrdinal ⟨2025, 1, 1⟩) = some 365)
  · intro env sp hfs ipn tm
    exact (build_length env (some ⟨2024, 1, 1⟩) sp hfs ipn tm
        (by decide : ValidDate ⟨2024, 1, 1⟩)).trans
      (by decide : some (toOrdinal (end_of_year ⟨2024, 1, 1⟩) + 1 -
        toOrdinal ⟨2024, 1, 1⟩) = some 366)

/-- Witness for C1 at the valid start date 2025-12-31. -/
theorem spec_c1_page_count_witness :
    (build_agenda_pdf sampleEnv (some ⟨2025, 12, 31⟩) 600 40 true 100).map
        List.length =
      some (toOrdinal (end_of_year (resolvedStart sampleEnv
          (some ⟨2025, 12, 31⟩))) + 1 -
        toOrdinal (resolvedStart sampleEnv (some ⟨2025, 12, 31⟩))) :=
  spec_c1_page_count.1 sampleEnv (some ⟨2025, 12, 31⟩) 600 40 true 100
    (by decide)

/-- C2: `format_date_spanish` renders a date as
Weekday Day Month Year via the 7-entry weekday table indexed by the
Monday-0 weekday and the 12-entry month table indexed by month - 1, the
day as a plain decimal; 2025-08-28 maps to Jueves 28 Agosto 2025 and
2025-01-01 to Miércoles 1 Enero 2025. -/
theorem spec_c2_format :
    (∀ d : PyDate, ValidDate d →
      format_date_spanish d =
        some (SPANISH_WEEKDAYS.getD (weekday d) "" ++ " " ++
          toString d.day ++ " " ++ SPANISH_MONTHS.getD (d.month - 1) "" ++
          " " ++ toString d.year)) ∧
    format_date_spanish ⟨2025, 8, 28⟩ = some "Jueves 28 Agosto 2025" ∧
    format_date_spanish ⟨2025, 1, 1⟩ = some "Miércoles 1 Enero 2025" :=
  ⟨fun d hv => format_date_spanish_eq d hv.2.1 hv.2.2.1,
   by decide, by decide⟩

/-- Witness for C2 at the valid date 2025-08-28. -/
theorem spec_c2_format_witness :
    format_date_spanish ⟨2025, 8, 28⟩ =
      some (SPANISH_WEEKDAYS.getD (weekday ⟨2025, 8, 28⟩) "" ++ " " ++
        toString (PyDate.day ⟨2025, 8, 28⟩) ++ " " ++
        SPANISH_MONTHS.getD (PyDate.month ⟨2025, 8, 28⟩ - 1) "" ++ " " ++
        toString (PyDate.year ⟨2025, 8, 28⟩)) :=
  spec_c2_format.1 ⟨2025, 8, 28⟩ (by decide)

/-- C3: in any successful run the page numbers are 1, 2, 3, ... with no
gaps or repeats (the counter starts at 1 and rises by one per page), the
date cursor advances by exactly one day per page, and when page numbers
are enabled the drawn label of each page is the decimal rendering of its
counter value. -/
theorem spec_c3_page_numbers (env : Env) (sd : Option PyDate) (sp hfs : ℤ)
    (ipn : Bool) (tm : ℤ) (ps : List PageOut)
    (h : build_agenda_pdf env sd sp hfs ipn tm = some ps) :
    ps.map PageOut.num = List.range' 1 ps.length ∧
    (∀ i (hi : i + 1 < ps.length),
      (ps.get ⟨i + 1, hi⟩).date =
        nextDate (ps.get ⟨i, by omega⟩).date) ∧
    (ipn = true → ∀ p ∈ ps,
      p.pageNumber.map TextDraw.text = some (toString p.num)) := by
  have hps := agendaLoop_pages env (register_readable_font env.fonts) sp hfs
    tm ipn ⟨(resolvedStart env sd).year, 12, 31⟩ agendaFuel
    (resolvedStart env sd) 1 ps h
  obtain ⟨h1, h2, h3⟩ := hps
  refine ⟨h1, ?_, ?_⟩
  · intro i hi
    have hi' : i < ps.length := by omega
    have e1 := h2 i
    have e2 := h2 (i + 1)
    rw [List.get?_eq_get hi'] at e1
    rw [List.get?_eq_get hi] at e2
    simp only [Option.map_some', Option.some.injEq] at e1 e2
    rw [e2, e1, Function.iterate_succ_apply']
  · intro hipn p hp
    have := h3 p hp
    rwa [if_pos hipn] at this

/-- Witness for C3 on the concrete one-page run `sampleBuild`. -/
theorem spec_c3_page_numbers_witness :
    (sampleBuild.getD []).map PageOut.num =
      List.range' 1 (sampleBuild.getD []).length :=
  (spec_c3_page_numbers sampleEnv (some ⟨2025, 12, 31⟩) 600 40 true 100
    (sampleBuild.getD []) (by rfl)).1

/-- C4: `register_readable_font` returns the name of the first candidate
whose file exists and registers successfully, individual failures being
swallowed; when no candidate file exists it returns the fixed fallback
"Helvetica" and document generation still succeeds. -/
theorem spec_c4_font_fallback :
    (∀ env : FontEnv, register_readable_font env =
      ((FONT_CANDIDATES.find? fun c =>
        env.pathExists c.2 && env.registerOk c.2).map Prod.fst).getD
        FALLBACK_FONT) ∧
    (∀ env : FontEnv,
      (∀ c ∈ FONT_CANDIDATES, env.pathExists c.2 = false) →
      register_readable_font env = "Helvetica") ∧
    (∀ (env : Env) (sd : Option PyDate) (sp hfs : ℤ) (ipn : Bool) (tm : ℤ),
      (∀ c ∈ FONT_CANDIDATES, env.fonts.pathExists c.2 = false) →
      ValidDate (resolvedStart env sd) →
      (build_agenda_pdf env sd sp hfs ipn tm).isSome) := by
  refine ⟨fun env => registerLoop_find env FONT_CANDIDATES, ?_, ?_⟩
  · intro env hnone
    show registerLoop env FONT_CANDIDATES = "Helvetica"
    rw [registerLoop_find env FONT_CANDIDATES]
    have : (FONT_CANDIDATES.find? fun c =>
        env.pathExists c.2 && env.registerOk c.2) = none := by
      rw [List.find?_eq_none]
      intro c hc
      simp [hnone c hc]
    rw [this]
    rfl
  · intro env sd sp hfs ipn tm _ hv
    have := build_length env sd sp hfs ipn tm hv
    cases hb : build_agenda_pdf env sd sp hfs ipn tm with
    | none => rw [hb] at this; simp at this
    | some ps => rfl

/-- Witness for C4: with the all-missing filesystem of `sampleEnv`, the
resolved font is the fallback and the one-page build succeeds. -/
theorem spec_c4_font_fallback_witness :
    register_readable_font sampleEnv.fonts = "Helvetica" ∧
    (build_agenda_pdf sampleEnv (some ⟨2025, 12, 31⟩) 600 40 true
      100).isSome :=
  ⟨spec_c4_font_fallback.2.1 sampleEnv.fonts (by decide),
   spec_c4_font_fallback.2.2 sampleEnv (some ⟨2025, 12, 31⟩) 600 40 true 100
     (by decide) (by decide)⟩

/-- C6: with no explicit start date, today is taken from the
Europe/Paris clock when the timezone database is available and otherwise
falls back to the local clock, with no error in either case; an explicit
start date is used unchanged. -/
theorem spec_c6_default_start (env : Env) (d : PyDate) :
    (env.zoneinfoAvailable = true →
      today_europe_paris env = env.parisToday) ∧
    (env.zoneinfoAvailable = false →
      today_europe_paris env = env.localToday) ∧
    resolvedStart env none = today_europe_paris env ∧
    resolvedStart env (some d) = d := by
  refine ⟨fun h => ?_, fun h => ?_, rfl, rfl⟩ <;>
    simp [today_europe_paris, h]

/-- Witness for C6 on `sampleEnv`, whose timezone database is available. -/
theorem spec_c6_default_start_witness :
    today_europe_paris sampleEnv = sampleEnv.parisToday ∧
    resolvedStart sampleEnv none = today_europe_paris sampleEnv ∧
    resolvedStart sampleEnv (some ⟨2025, 1, 1⟩) = ⟨2025, 1, 1⟩ :=
  ⟨(spec_c6_default_start sampleEnv ⟨2025, 1, 1⟩).1 rfl,
   (spec_c6_default_start sampleEnv ⟨2025, 1, 1⟩).2.2.1,
   (spec_c6_default_start sampleEnv ⟨2025, 1, 1⟩).2.2.2⟩

/-- C7: for positive spacing, `draw_grid` draws exactly the vertical
lines at multiples of the spacing from 0 to the page width inclusive,
spanning the full page height, and the horizontal lines at multiples of
the spacing from 0 up to page height minus top margin inclusive, and no
other lines. -/
theorem spec_c7_grid_lines (w page_h : ℚ) (s tm : ℤ) (hs : 1 ≤ s)
    (L : Line) :
    L ∈ draw_grid w page_h s tm ↔
      (∃ k : Nat, (((k : ℤ) * s : ℤ) : ℚ) ≤ w ∧
        L = ⟨(((k : ℤ) * s : ℤ) : ℚ), 0, (((k : ℤ) * s : ℤ) : ℚ),
          page_h⟩) ∨
      (∃ k : Nat, (((k : ℤ) * s : ℤ) : ℚ) ≤ page_h - (tm : ℚ) ∧
        L = ⟨0, (((k : ℤ) * s : ℤ) : ℚ), w, (((k : ℤ) * s : ℤ) : ℚ)⟩) :=
  mem_draw_grid_iff w page_h s tm hs L

/-- Witness for C7: the vertical line at x = 20 on a 20 x 40 page with
spacing 20. -/
theorem spec_c7_grid_lines_witness :
    (⟨20, 0, 20, 40⟩ : Line) ∈ draw_grid 20 40 20 10 :=
  (spec_c7_grid_lines 20 40 20 10 (by decide) ⟨20, 0, 20, 40⟩).mpr
    (Or.inl ⟨1, by norm_num, by norm_num [Line.mk.injEq]⟩)

/-- C8: the header is horizontally centered: its left x-coordinate is
(page width - text width) / 2, so the midpoint of the rendered text is
exactly page width / 2, and its vertical position is page height minus
the top offset. -/
theorem spec_c8_header_centered (sw : String → String → ℤ → ℚ)
    (text : String) (w page_h : ℚ) (fn : String) (fs off : ℤ) :
    (draw_centered_text_top sw text w page_h fn fs off).x =
      (w - sw text fn fs) / 2 ∧
    (draw_centered_text_top sw text w page_h fn fs off).y =
      page_h - (off : ℚ) ∧
    (draw_centered_text_top sw text w page_h fn fs off).x +
      sw text fn fs / 2 = w / 2 := by
  refine ⟨rfl, rfl, ?_⟩
  show (w - sw text fn fs) / 2 + sw text fn fs / 2 = w / 2
  ring

/-- C9: the grid cursor strictly increases per iteration exactly when
the spacing is at least 1 and never increases when it is nonpositive;
for a nonnegative bound the while-loop terminates if and only if the
spacing is strictly positive; and every emitted x-position is a cursor
iterate. -/
theorem spec_c9_termination (w bound : ℚ) (s : ℤ) :
    (1 ≤ s → ∀ n, loopCursor s n < loopCursor s (n + 1)) ∧
    (s ≤ 0 → ∀ n, loopCursor s (n + 1) ≤ loopCursor s n) ∧
    (0 ≤ bound → (gridLoopTerminates bound s ↔ 1 ≤ s)) ∧
    (1 ≤ s → ∀ x ∈ gridXs w s, ∃ n, x = loopCursor s n) := by
  refine ⟨?_, ?_, ?_, ?_⟩
  · intro hs n
    show loopCursor s n < loopCursor s n + s
    omega
  · intro hs n
    show loopCursor s n + s ≤ loopCursor s n
    omega
  · intro hb
    constructor
    · rintro ⟨n, hn⟩
      by_contra hs
      have hs0 : s ≤ 0 := by omega
      apply hn
      rw [loopCursor_eq]
      have hns : (n : ℤ) * s ≤ 0 :=
        mul_nonpos_iff.mpr (Or.inl ⟨Int.natCast_nonneg n, hs0⟩)
      calc ((n * s : ℤ) : ℚ) ≤ 0 := by exact_mod_cast hns
        _ ≤ bound := hb
    · intro hs
      refine ⟨gridFuel bound, ?_⟩
      rw [loopCursor_eq]
      have hgt := gridFuel_spec bound s hs
      push_cast at hgt ⊢
      intro hcon
      linarith
  · intro hs x hx
    obtain ⟨k, rfl, _⟩ := (mem_gridXs_iff w s hs x).mp hx
    exact ⟨k, (loopCursor_eq s k).symm⟩

/-- Witness for C9 at the A4 page width: the loop terminates for the
default spacing 20 and does not terminate for spacing 0. -/
theorem spec_c9_termination_witness :
    gridLoopTerminates A4w 20 ∧ ¬ gridLoopTerminates A4w 0 :=
  ⟨((spec_c9_termination A4w A4w 20).2.2.1 (by decide)).mpr (by decide),
   fun h => absurd (((spec_c9_termination A4w A4w 0).2.2.1
     (by decide)).mp h) (by decide)⟩

/-- C10: `format_date_spanish` is total on valid dates: the weekday
index is below 7, the month index is below 12, and the lookup never
fails. -/
theorem spec_c10_format_total (d : PyDate) (hv : ValidDate d) :
    weekday d < 7 ∧ d.month - 1 < 12 ∧
      (format_date_spanish d).isSome := by
  refine ⟨weekday_lt_7 d, ?_, ?_⟩
  · have := hv.2.2.1
    omega
  · rw [format_date_spanish_eq d hv.2.1 hv.2.2.1]
    rfl

/-- Witness for C10 at the leap-day 2024-02-29. -/
theorem spec_c10_format_total_witness :
    weekday ⟨2024, 2, 29⟩ < 7 ∧ PyDate.month ⟨2024, 2, 29⟩ - 1 < 12 ∧
      (format_date_spanish ⟨2024, 2, 29⟩).isSome :=
  spec_c10_format_total ⟨2024, 2, 29⟩ (by decide)

/-- C5 counterexample: on a 20 x 40 page with spacing 20 and top margin
10, `draw_grid` draws the vertical line from (0, 0) to (0, 40), whose
top endpoint lies strictly inside the header band - so it is not true
that no grid line enters the band. -/
theorem spec_c5_counterexample :
    (⟨0, 0, 0, 40⟩ : Line) ∈ draw_grid 20 40 20 10 ∧
      inHeaderBand 40 10 ((⟨0, 0, 0, 40⟩ : Line).y2) :=
  ⟨by decide, by norm_num [inHeaderBand]⟩

/-- C5 (amended): no horizontal grid line enters the header band, but
every vertical grid line spans the full page height, so whenever the
page is nonempty and the top margin positive the vertical line at x = 0
does enter the band. -/
theorem spec_c5_amended (w page_h : ℚ) (s tm : ℤ) (hs : 1 ≤ s) :
    (∀ y ∈ gridYs page_h s tm, ¬ inHeaderBand page_h tm (y : ℚ)) ∧
    (0 ≤ w → 0 < tm →
      (⟨0, 0, 0, page_h⟩ : Line) ∈ draw_grid w page_h s tm ∧
        inHeaderBand page_h tm ((⟨0, 0, 0, page_h⟩ : Line).y2)) := by
  constructor
  · intro y hy
    have hle := mem_gridCursorGo_le (page_h - (tm : ℚ)) s _ _ _ hy
    exact not_lt.mpr hle
  · intro hw htm
    constructor
    · unfold draw_grid
      apply List.mem_append_left
      apply List.mem_map.mpr
      refine ⟨0, ?_, by simp⟩
      apply (mem_gridXs_iff w s hs 0).mpr
      exact ⟨0, by simp, by simpa using hw⟩
    · show page_h - (tm : ℚ) < page_h
      have : (0 : ℚ) < (tm : ℚ) := by exact_mod_cast htm
      linarith

/-- Witness for the amended C5 at the A4 geometry with the default
spacing and top margin. -/
theorem spec_c5_amended_witness :
    (⟨0, 0, 0, A4h⟩ : Line) ∈ draw_grid A4w A4h 20 100 ∧
      inHeaderBand A4h 100 ((⟨0, 0, 0, A4h⟩ : Line).y2) :=
  (spec_c5_amended A4w A4h 20 100 (by decide)).2 (by decide) (by decide)

end AgendaPdf
